import Mathlib

/-!
Verification of the resilient GraphQL request wrapper
(`src/server/utils/shopify-client.js`, function `graphqlRequest`).

The retry loop (source lines 44-194) is embedded shallowly: one call is
driven by a `Config` holding the transport oracle (what each attempt's
`client.request` does), whether the caller's variable mapping carries a
`checkCancelled` predicate, and which invocations of that predicate throw
the `IMPORT_CANCELLED` signal.  The interpreter returns the final outcome
(the resolved `data` payload or the thrown error) together with a trace of
observable events: transport requests issued (tagged with whether the
transmitted variable mapping still holds the `checkCancelled` field),
waits with their millisecond amounts, and cancellation-predicate
invocations.

JavaScript numbers that the source only ever uses as integers (costs,
rates, waits, Retry-After seconds) are modelled as `Int`; JS string
operations (`toLowerCase().includes('throttled')`, `join(' | ')`) are
modelled character-exactly on `List Char`.
-/

namespace ShopifyClient

/-- A GraphQL `data` payload value.  `pnull` models an explicit JSON
`null` (which the source accepts as a valid success value, line 121-123);
`pval` is any other value, identified by an opaque tag. -/
inductive Payload where
  | pnull
  | pval (tag : String)
deriving DecidableEq, Repr

/-- One element of a response body's `errors` array: `message` (may be
absent, the source guards it with `?.` on line 77) and `extensions.code`
(line 78). -/
structure GError where
  message : Option String := none
  code : Option String := none
deriving DecidableEq, Repr

/-- The `throttleStatus` part of the cost extension (source line 86). -/
structure ThrottleStatus where
  currentlyAvailable : Int
  restoreRate : Int
deriving DecidableEq, Repr

/-- The `extensions.cost` object (source lines 73, 84-86).
`requestedQueryCost` may be absent. -/
structure Cost where
  requestedQueryCost : Option Int := none
  throttleStatus : Option ThrottleStatus := none
deriving DecidableEq, Repr

/-- A response body: either a JSON array of the given length (the source
only distinguishes empty from non-empty, line 67) or an object with
optional `errors`, `data` and `extensions.cost` keys.  In `obj`,
`errors = some []` models an explicit empty `errors` array (truthy in JS,
line 114), `data = none` models an absent/undefined `data` key while
`data = some Payload.pnull` models an explicit `data: null` (line 122). -/
inductive Body where
  | arr (n : Nat)
  | obj (errors : Option (List GError)) (data : Option Payload) (cost : Option Cost)
deriving DecidableEq, Repr

/-- A transport-level response (source line 52): its `body`, plus the
root-level `data`/`errors`/`extensions.cost` fields consulted by the
compatibility check on lines 61-64. -/
structure Response where
  body : Option Body
  rootData : Option Payload := none
  rootErrors : Option (List GError) := none
  rootCost : Option Cost := none
deriving DecidableEq, Repr

/-- A thrown JS error as the catch block (lines 131-189) inspects it:
`message`, `code` (line 149), `response.code` (line 145) and the parsed
`Retry-After` header of `response.headers` (lines 157-159; `none` when the
header is absent or the error has no response). -/
structure JsError where
  message : String
  code : Option String := none
  responseCode : Option Int := none
  retryAfter : Option Int := none
deriving DecidableEq, Repr

/-- What one attempt's `await client.request(...)` (line 52) does:
deliver a response, or throw a transport-level exception. -/
inductive AttemptOutcome where
  | ok (r : Response)
  | err (e : JsError)
deriving DecidableEq, Repr

/-- Observable events of one call: a transport request for the given
attempt number whose transmitted variable mapping carries the
`checkCancelled` field iff the flag is true; a wait of the given number of
milliseconds; the k-th invocation of the caller's cancellation
predicate. -/
inductive Event where
  | request (attempt : Nat) (sentCheckCancelled : Bool)
  | wait (ms : Int)
  | cancelCheck (k : Nat)
deriving DecidableEq, Repr

/-- Final outcome of `graphqlRequest`: the resolved `data` value or the
thrown error. -/
inductive ExecResult where
  | success (p : Payload)
  | failure (e : JsError)
deriving DecidableEq, Repr

/-- Configuration of one call: the transport oracle (indexed by 1-based
attempt number), whether the caller's `variables` object holds a (truthy)
`checkCancelled` predicate, and which invocations of that predicate throw
the `IMPORT_CANCELLED` signal. -/
structure Config where
  transport : Nat → AttemptOutcome
  hasCancel : Bool
  cancelSig : Nat → Bool

/-- MAX_ATTEMPTS, source line 44. -/
def MAX_ATTEMPTS : Nat := 10

/-- BASE_WAIT_MS, source line 45. -/
def BASE_WAIT_MS : Int := 1000

/-- A plain `new Error(msg)`: only a message, no code and no response. -/
def plainError (m : String) : JsError := { message := m }

/-- The cancellation signal thrown by the caller's `checkCancelled`
predicate and recognised on source line 135. -/
def cancelledError : JsError := plainError "IMPORT_CANCELLED"

/-- The exhaustion error thrown after the loop ends, source line 193. -/
def exhaustedError : JsError :=
  plainError "GraphQL request exhausted max retries (10)."

/-- Whether `needle` occurs at the start of `hay` (helper for the JS
`String.includes` model). -/
def beginsWith : List Char → List Char → Bool
  | [], _ => true
  | _ :: _, [] => false
  | c :: n, h :: t => c == h && beginsWith n t

/-- JS `hay.includes(needle)` on exploded strings: `needle` occurs as a
contiguous subsequence of `hay`. -/
def containsSeq (needle : List Char) : List Char → Bool
  | [] => needle.isEmpty
  | h :: t => beginsWith needle (h :: t) || containsSeq needle t

/-- The characters of the search word on source lines 77 and 146. -/
def throttledChars : List Char := "throttled".data

/-- JS `s.toLowerCase().includes('throttled')` (source lines 77, 146). -/
def containsThrottled (s : String) : Bool :=
  containsSeq throttledChars (s.data.map Char.toLower)

/-- Whether one body error signals throttling (source lines 76-79):
its message contains "throttled" case-insensitively, or its
`extensions.code` is `THROTTLED`. -/
def errThrottles (e : GError) : Bool :=
  (match e.message with
   | some m => containsThrottled m
   | none => false) ||
  e.code == some "THROTTLED"

/-- The `errors?.some(...)` throttling test of source lines 76-79; an
absent `errors` key yields `undefined`, i.e. false. -/
def isThrottledErrors : Option (List GError) → Bool
  | none => false
  | some l => l.any errThrottles

/-- JS `errors.map(e => e.message).join(' | ')` (source line 115); an
absent message joins as the empty string. -/
def joinMsgs (l : List GError) : String :=
  ⟨List.intercalate " | ".data (l.map fun e => (e.message.getD "").data)⟩

/-- JS truthiness of a payload value: `null` is falsy, any other modelled
value truthy (source line 62 checks `response.data ||`). -/
def payloadTruthy : Option Payload → Bool
  | some Payload.pnull => false
  | some (Payload.pval _) => true
  | none => false

/-- The body normalisation of source lines 59-64: use `response.body`;
when it is absent and the response carries truthy root-level `data` or
`errors`, treat the response itself as the body; otherwise the body stays
absent. -/
def normalizeBody (r : Response) : Option Body :=
  match r.body with
  | some b => some b
  | none =>
    if payloadTruthy r.rootData || r.rootErrors.isSome then
      some (Body.obj r.rootErrors r.rootData r.rootCost)
    else none

/-- JS `x || d` for a number already known to be present. -/
def jsOr (x : Int) (d : Int) : Int := if x = 0 then d else x

/-- JS `x || d` for a possibly-absent number: absent, or present and
falsy (zero), falls back to `d` (source line 88). -/
def jsOrOpt (x : Option Int) (d : Int) : Int :=
  match x with
  | some v => jsOr v d
  | none => d

/-- Math.ceil (a / b) for positive integers a, b (the only context in
which the source uses it, line 94: both guards on line 93 hold there). -/
def ceilDivPos (a b : Int) : Int := Int.ofNat ((a.toNat + b.toNat - 1) / b.toNat)

/-- Classification of one attempt before the retry decision: the attempt
resolves with a payload, enters the soft-throttle path (lines 81-111)
with the response's cost extension, or throws an error into the catch
block (both the internal sentinel throws of lines 69, 117, 129 and
transport exceptions). -/
inductive AttemptClass where
  | success (p : Payload)
  | soft (c : Option Cost)
  | raise (e : JsError)
deriving DecidableEq, Repr

/-- The classification of source lines 57-129: empty/invalid body throws
the `TRANSIENT_EMPTY_BODY` sentinel (lines 66-70); a throttling error set
enters the soft-throttle path (lines 75-111); a non-throttling error set
throws the joined messages (lines 113-118); a present `data` key
(including explicit null) succeeds (lines 120-124); otherwise the
`TRANSIENT_MISSING_DATA` sentinel is thrown (lines 126-129).  A non-empty
array body has no `errors` and no `data` key, so it reaches the
missing-data throw. -/
def classify : AttemptOutcome → AttemptClass
  | AttemptOutcome.err e => AttemptClass.raise e
  | AttemptOutcome.ok r =>
    match normalizeBody r with
    | none => AttemptClass.raise (plainError "TRANSIENT_EMPTY_BODY")
    | some (Body.arr 0) => AttemptClass.raise (plainError "TRANSIENT_EMPTY_BODY")
    | some (Body.arr (_ + 1)) => AttemptClass.raise (plainError "TRANSIENT_MISSING_DATA")
    | some (Body.obj errs d c) =>
      if isThrottledErrors errs then AttemptClass.soft c
      else
        match errs with
        | some l => AttemptClass.raise (plainError (joinMsgs l))
        | none =>
          match d with
          | some p => AttemptClass.success p
          | none => AttemptClass.raise (plainError "TRANSIENT_MISSING_DATA")

/-- The soft-throttle wait computation of source lines 81-100: fallback
`BASE_WAIT_MS * 2^(attempt-1)`; when the cost extension carries a
`throttleStatus`, `costNeeded = requestedQueryCost || lastRequestedCost
|| 50` is remembered (line 89) and, when the deficit and restore rate are
positive, the wait becomes `ceil(deficit / restoreRate) * 1000 + 100`.
Returns the wait together with the updated `lastRequestedCost`. -/
def softWait (attempt : Nat) (lastCost : Int) (c : Option Cost) : Int × Int :=
  let fallback : Int := BASE_WAIT_MS * 2 ^ (attempt - 1)
  match c with
  | some cost =>
    match cost.throttleStatus with
    | some ts =>
      let costNeeded := jsOrOpt cost.requestedQueryCost (jsOr lastCost 50)
      let deficit := costNeeded - ts.currentlyAvailable
      if 0 < deficit ∧ 0 < ts.restoreRate then
        (ceilDivPos deficit ts.restoreRate * 1000 + 100, costNeeded)
      else (fallback, costNeeded)
    | none => (fallback, lastCost)
  | none => (fallback, lastCost)

/-- The network-throttle test of source lines 144-146:
`error?.response?.code === 429 || error?.message?.toLowerCase().includes('throttled')`. -/
abbrev isNetThrottledErr (e : JsError) : Prop :=
  e.responseCode = some 429 ∨ containsThrottled e.message = true

/-- The catch-path wait of source lines 153-162: exponential backoff
`BASE_WAIT_MS * 2^attempt`, overridden for network throttling by the
parsed `Retry-After` header (seconds to ms plus 500) and floored at
2000 ms. -/
def catchWait (attempt : Nat) (e : JsError) : Int :=
  let base : Int := BASE_WAIT_MS * 2 ^ attempt
  if isNetThrottledErr e then
    max (match e.retryAfter with
         | some s => s * 1000 + 500
         | none => base) 2000
  else base

/-- Result of deciding one attempt: finish the whole call with this
outcome, or wait the given number of milliseconds (flanked by
cancellation checks) and retry, carrying the updated
`lastRequestedCost`. -/
inductive StepResult where
  | finish (r : ExecResult)
  | retry (waitMs : Int) (newLast : Int)
deriving DecidableEq, Repr

/-- The retryable-error condition of source lines 139-152:
`isTransient || isNetworkThrottled || isNetworkError`. -/
abbrev retriableErr (e : JsError) : Prop :=
  e.message = "TRANSIENT_EMPTY_BODY" ∨ e.message = "TRANSIENT_MISSING_DATA" ∨
  e.responseCode = some 429 ∨ containsThrottled e.message = true ∨
  e.code = some "ECONNRESET" ∨ e.code = some "ETIMEDOUT" ∨ e.code = some "EPIPE"

/-- The catch block of source lines 131-189 for a thrown error: the
cancellation signal propagates unchanged (lines 135-137); a transient
sentinel, network-throttle (429 or "throttled" in the message) or
recognised network error code retries with `catchWait` while attempts
remain (lines 140-179); anything else, or the final attempt, rethrows
(line 189). -/
def afterRaise (attempt : Nat) (lastCost : Int) (e : JsError) : StepResult :=
  if e.message = "IMPORT_CANCELLED" then StepResult.finish (ExecResult.failure e)
  else
    if retriableErr e ∧ attempt < MAX_ATTEMPTS then
      StepResult.retry (catchWait attempt e) lastCost
    else StepResult.finish (ExecResult.failure e)

/-- Decision for one whole attempt, composing the try-block
classification with the soft-throttle path and the catch block. -/
def decideAttempt (attempt : Nat) (lastCost : Int) (o : AttemptOutcome) : StepResult :=
  match classify o with
  | AttemptClass.success p => StepResult.finish (ExecResult.success p)
  | AttemptClass.soft c =>
    let wn := softWait attempt lastCost c
    StepResult.retry wn.1 wn.2
  | AttemptClass.raise e => afterRaise attempt lastCost e

/-- One wait between attempts (source lines 102-108 and 170-176): when
`variables.checkCancelled` is present it is invoked immediately before
the wait and immediately after it, and a throw of the cancellation signal
aborts the call at that point (before the wait, the wait is never
performed).  Returns the updated invocation counter, or the propagated
cancellation error, together with the emitted events. -/
def doWait (cfg : Config) (cc : Nat) (w : Int) : Except JsError Nat × List Event :=
  if cfg.hasCancel then
    if cfg.cancelSig cc then
      (Except.error cancelledError, [Event.cancelCheck cc])
    else if cfg.cancelSig (cc + 1) then
      (Except.error cancelledError,
       [Event.cancelCheck cc, Event.wait w, Event.cancelCheck (cc + 1)])
    else
      (Except.ok (cc + 2),
       [Event.cancelCheck cc, Event.wait w, Event.cancelCheck (cc + 1)])
  else (Except.ok cc, [Event.wait w])

/-- The retry loop of source lines 49-193, driven by the remaining fuel
(`MAX_ATTEMPTS - attempt + 1` at entry).  With no fuel left the loop has
ended and the exhaustion error of line 193 is thrown.  Each attempt
issues one transport request (whose transmitted variable mapping is the
caller's, unchanged — line 52-55 passes `variables` as is), then either
finishes or waits and continues with the next attempt. -/
def graphqlRequestLoop (cfg : Config) : Nat → Nat → Int → Nat → ExecResult × List Event
  | 0, _, _, _ => (ExecResult.failure exhaustedError, [])
  | fuel + 1, attempt, lastCost, cc =>
    match decideAttempt attempt lastCost (cfg.transport attempt) with
    | StepResult.finish r => (r, [Event.request attempt cfg.hasCancel])
    | StepResult.retry w newLast =>
      match doWait cfg cc w with
      | (Except.error e, evs) =>
        (ExecResult.failure e, Event.request attempt cfg.hasCancel :: evs)
      | (Except.ok cc2, evs) =>
        let rest := graphqlRequestLoop cfg fuel (attempt + 1) newLast cc2
        (rest.fst, Event.request attempt cfg.hasCancel :: (evs ++ rest.snd))

/-- The whole `graphqlRequest` call (source lines 28-194): 10 attempts,
starting at attempt 1 with `lastRequestedCost = 0`. -/
def graphqlRequest (cfg : Config) : ExecResult × List Event :=
  graphqlRequestLoop cfg MAX_ATTEMPTS 1 0 0

/-- Number of transport requests issued in a trace. -/
def countRequests (t : List Event) : Nat :=
  t.countP fun e =>
    match e with
    | Event.request _ _ => true
    | _ => false

/-- Checks that in a trace every wait is immediately preceded and
immediately followed by a cancellation-predicate invocation. -/
def waitsWrapped : List Event → Bool
  | [] => true
  | Event.cancelCheck _ :: Event.wait _ :: Event.cancelCheck b :: t =>
    waitsWrapped (Event.cancelCheck b :: t)
  | Event.wait _ :: _ => false
  | _ :: t => waitsWrapped t

/-- The result the call ends with when every attempt classifies as
retriable: the exhaustion error if the last attempt took the
soft-throttle path (its `continue` ends the loop), and otherwise the last
attempt's own thrown error, rethrown on source line 189. -/
def finalFailureOf (o : AttemptOutcome) : ExecResult :=
  match classify o with
  | AttemptClass.success p => ExecResult.success p
  | AttemptClass.soft _ => ExecResult.failure exhaustedError
  | AttemptClass.raise e => ExecResult.failure e

/-- Whether a step decision retries. -/
def isRetryStep : StepResult → Bool
  | StepResult.retry _ _ => true
  | StepResult.finish _ => false

/-- Whether a response classifies as an empty/structurally-invalid body
(source lines 66-70): normalised body absent or an empty array. -/
def isEmptyBodyResp (r : Response) : Bool :=
  match normalizeBody r with
  | none => true
  | some (Body.arr 0) => true
  | some _ => false

/-! String lemmas: a needle containing neither space nor bar cannot occur
across the " | " separators of a joined message list, so a joined message
contains "throttled" only if one of its parts does. -/

theorem beginsWith_append_space (n : List Char) (hsp : ' ' ∉ n) :
    ∀ u v : List Char, beginsWith n (u ++ ' ' :: v) = true → beginsWith n u = true := by
  intro u
  induction u generalizing n with
  | nil =>
    intro v h
    cases n with
    | nil => rfl
    | cons c nt =>
      simp only [List.nil_append, beginsWith, Bool.and_eq_true, beq_iff_eq] at h
      exact absurd (h.1 ▸ List.mem_cons_self c nt) hsp
  | cons x u' ih =>
    intro v h
    cases n with
    | nil => rfl
    | cons c nt =>
      simp only [List.cons_append, beginsWith, Bool.and_eq_true] at h ⊢
      exact ⟨h.1, ih nt (fun hm => hsp (List.mem_cons_of_mem c hm)) v h.2⟩

theorem containsSeq_cons_skip (n : List Char) (c : Char) (hne : n ≠ [])
    (hc : c ∉ n) (t : List Char) (h : containsSeq n (c :: t) = true) :
    containsSeq n t = true := by
  simp only [containsSeq, Bool.or_eq_true] at h
  rcases h with h | h
  · cases n with
    | nil => exact absurd rfl hne
    | cons d nt =>
      simp only [beginsWith, Bool.and_eq_true, beq_iff_eq] at h
      exact absurd (h.1 ▸ List.mem_cons_self d nt) hc
  · exact h

theorem containsSeq_append_sep (n : List Char) (hne : n ≠ []) (hsp : ' ' ∉ n)
    (hbar : '|' ∉ n) :
    ∀ u v : List Char, containsSeq n (u ++ ' ' :: '|' :: ' ' :: v) = true →
      containsSeq n u = true ∨ containsSeq n v = true := by
  intro u
  induction u with
  | nil =>
    intro v h
    simp only [List.nil_append] at h
    exact Or.inr (containsSeq_cons_skip n ' ' hne hsp _
      (containsSeq_cons_skip n '|' hne hbar _
        (containsSeq_cons_skip n ' ' hne hsp _ h)))
  | cons x u' ih =>
    intro v h
    simp only [List.cons_append, containsSeq, Bool.or_eq_true] at h
    rcases h with h | h
    · refine Or.inl ?_
      have hb := beginsWith_append_space n hsp (x :: u') ('|' :: ' ' :: v) h
      simp only [containsSeq, Bool.or_eq_true]
      exact Or.inl hb
    · rcases ih v h with h' | h'
      · refine Or.inl ?_
        simp only [containsSeq, Bool.or_eq_true]
        exact Or.inr h'
      · exact Or.inr h'

theorem intercalate_pair (s : List Char) (a b : List Char) (l : List (List Char)) :
    List.intercalate s (a :: b :: l) = a ++ s ++ List.intercalate s (b :: l) := by
  simp [List.intercalate, List.intersperse_cons₂, List.append_assoc]

theorem containsSeq_intercalate (n : List Char) (hne : n ≠ []) (hsp : ' ' ∉ n)
    (hbar : '|' ∉ n) :
    ∀ parts : List (List Char),
      containsSeq n (List.intercalate (' ' :: '|' :: ' ' :: []) parts) = true →
      ∃ p ∈ parts, containsSeq n p = true := by
  intro parts
  induction parts with
  | nil =>
    intro h
    rw [show List.intercalate (' ' :: '|' :: ' ' :: []) ([] : List (List Char)) = []
          from rfl] at h
    simp only [containsSeq, List.isEmpty_iff] at h
    exact absurd h hne
  | cons p ps ih =>
    intro h
    cases ps with
    | nil =>
      refine ⟨p, List.mem_cons_self p [], ?_⟩
      simpa [List.intercalate] using h
    | cons q ps' =>
      rw [intercalate_pair, List.append_assoc] at h
      rcases containsSeq_append_sep n hne hsp hbar p _ h with h' | h'
      · exact ⟨p, List.mem_cons_self p _, h'⟩
      · rcases ih h' with ⟨r, hr, hcr⟩
        exact ⟨r, List.mem_cons_of_mem p hr, hcr⟩

theorem map_intersperse {α β : Type} (f : α → β) (s : α) :
    ∀ l : List α, (List.intersperse s l).map f = List.intersperse (f s) (l.map f) := by
  intro l
  induction l with
  | nil => rfl
  | cons x xs ih =>
    cases xs with
    | nil => rfl
    | cons y zs =>
      simp only [List.intersperse_cons₂, List.map_cons] at ih ⊢
      rw [ih]

theorem map_intercalate (f : Char → Char) (s : List Char) (L : List (List Char)) :
    (List.intercalate s L).map f = List.intercalate (s.map f) (L.map (List.map f)) := by
  simp only [List.intercalate, List.map_flatten, map_intersperse]

/-- A joined error-message string contains "throttled" (case-insensitive)
only if one of the individual messages does: the search word holds
neither a space nor a bar, so it cannot straddle a " | " separator. -/
theorem joinMsgs_not_throttled (l : List GError)
    (h : ∀ e ∈ l, errThrottles e = false) :
    containsThrottled (joinMsgs l) = false := by
  by_contra hcon
  rw [Bool.not_eq_false] at hcon
  unfold containsThrottled joinMsgs at hcon
  have hdata : (String.mk (List.intercalate " | ".data
      (l.map fun e => (e.message.getD "").data))).data =
      List.intercalate " | ".data (l.map fun e => (e.message.getD "").data) := rfl
  rw [hdata, map_intercalate] at hcon
  have hsep : " | ".data.map Char.toLower = ' ' :: '|' :: ' ' :: [] := by decide
  rw [hsep] at hcon
  have hne : throttledChars ≠ [] := by decide
  have hsp : ' ' ∉ throttledChars := by decide
  have hbar : '|' ∉ throttledChars := by decide
  rcases containsSeq_intercalate throttledChars hne hsp hbar _ hcon with ⟨p, hp, hcp⟩
  rw [List.mem_map] at hp
  rcases hp with ⟨m, hm, rfl⟩
  rw [List.mem_map] at hm
  rcases hm with ⟨e, he, rfl⟩
  have hef := h e he
  simp only [errThrottles, Bool.or_eq_false_iff] at hef
  cases hmsg : e.message with
  | none =>
    rw [hmsg] at hcp
    simp only [Option.getD_none] at hcp
    exact absurd hcp (by decide)
  | some m =>
    rw [hmsg] at hcp
    simp only [Option.getD_some] at hcp
    have hct : containsThrottled m = true := hcp
    rw [hmsg] at hef
    simp only [hct] at hef
    exact Bool.noConfusion hef.1

/-! Structural lemmas about the retry loop. -/

theorem loop_head (cfg : Config) (fuel a : Nat) (l : Int) (cc : Nat) :
    ∃ t, (graphqlRequestLoop cfg (fuel + 1) a l cc).snd =
      Event.request a cfg.hasCancel :: t := by
  rcases hd : decideAttempt a l (cfg.transport a) with r | ⟨w, nl⟩
  · exact ⟨[], by simp [graphqlRequestLoop, hd]⟩
  · rcases hw : doWait cfg cc w with ⟨⟨e⟩ | cc2, evs⟩
    · exact ⟨evs, by simp [graphqlRequestLoop, hd, hw]⟩
    · exact ⟨evs ++ (graphqlRequestLoop cfg fuel (a + 1) nl cc2).snd,
        by simp [graphqlRequestLoop, hd, hw]⟩

theorem loop_finish (cfg : Config) (fuel a : Nat) (l : Int) (cc : Nat)
    (r : ExecResult) (hd : decideAttempt a l (cfg.transport a) = StepResult.finish r) :
    graphqlRequestLoop cfg (fuel + 1) a l cc = (r, [Event.request a cfg.hasCancel]) := by
  simp [graphqlRequestLoop, hd]

theorem loop_retry_nocancel (cfg : Config) (hc : cfg.hasCancel = false)
    (fuel a : Nat) (l : Int) (cc : Nat) (w nl : Int)
    (hd : decideAttempt a l (cfg.transport a) = StepResult.retry w nl) :
    graphqlRequestLoop cfg (fuel + 1) a l cc =
      ((graphqlRequestLoop cfg fuel (a + 1) nl cc).fst,
       Event.request a false :: Event.wait w ::
         (graphqlRequestLoop cfg fuel (a + 1) nl cc).snd) := by
  simp [graphqlRequestLoop, hd, doWait, hc]

theorem loop_retry_shape (cfg : Config) (hc : cfg.hasCancel = false)
    (fuel a : Nat) (l : Int) (cc : Nat) (w nl : Int)
    (hd : decideAttempt a l (cfg.transport a) = StepResult.retry w nl) :
    ∃ rest, (graphqlRequestLoop cfg (fuel + 2) a l cc).snd =
      Event.request a false :: Event.wait w ::
        Event.request (a + 1) false :: rest := by
  rw [show fuel + 2 = (fuel + 1) + 1 from rfl,
    loop_retry_nocancel cfg hc (fuel + 1) a l cc w nl hd]
  rcases loop_head cfg fuel (a + 1) nl cc with ⟨t, ht⟩
  rw [hc] at ht
  exact ⟨t, by rw [ht]⟩

/-! Lemmas about the catch-block decision. -/

theorem afterRaise_eq_retry (a : Nat) (l : Int) (e : JsError)
    (h1 : e.message ≠ "IMPORT_CANCELLED") (h2 : retriableErr e)
    (ha : a < MAX_ATTEMPTS) :
    afterRaise a l e = StepResult.retry (catchWait a e) l := by
  unfold afterRaise
  rw [if_neg h1, if_pos ⟨h2, ha⟩]

theorem afterRaise_max (l : Int) (e : JsError) :
    afterRaise 10 l e = StepResult.finish (ExecResult.failure e) := by
  unfold afterRaise
  by_cases h1 : e.message = "IMPORT_CANCELLED"
  · rw [if_pos h1]
  · rw [if_neg h1, if_neg]
    rintro ⟨-, hlt⟩
    exact absurd hlt (by decide)

theorem afterRaise_retry_inv (l : Int) (e : JsError)
    (h : isRetryStep (afterRaise 1 l e) = true) :
    e.message ≠ "IMPORT_CANCELLED" ∧ retriableErr e := by
  unfold afterRaise at h
  by_cases h1 : e.message = "IMPORT_CANCELLED"
  · rw [if_pos h1] at h
    exact absurd h (by simp [isRetryStep])
  · rw [if_neg h1] at h
    by_cases h2 : retriableErr e ∧ 1 < MAX_ATTEMPTS
    · exact ⟨h1, h2.1⟩
    · rw [if_neg h2] at h
      exact absurd h (by simp [isRetryStep])

/-! Classification lemmas for specific response shapes. -/

theorem classify_success (r : Response) (p : Payload) (ec : Option Cost)
    (hn : normalizeBody r = some (Body.obj none (some p) ec)) :
    classify (AttemptOutcome.ok r) = AttemptClass.success p := by
  simp [classify, hn, isThrottledErrors]

theorem classify_empty (r : Response) (he : isEmptyBodyResp r = true) :
    classify (AttemptOutcome.ok r) =
      AttemptClass.raise (plainError "TRANSIENT_EMPTY_BODY") := by
  unfold isEmptyBodyResp at he
  cases hn : normalizeBody r with
  | none => simp [classify, hn]
  | some b =>
    rw [hn] at he
    cases b with
    | arr n =>
      cases n with
      | zero => simp [classify, hn]
      | succ m => exact absurd he (by simp)
    | obj errs d c => exact absurd he (by simp)

theorem classify_soft (r : Response) (errs : Option (List GError))
    (d : Option Payload) (c : Option Cost)
    (hb : r.body = some (Body.obj errs d c))
    (hth : isThrottledErrors errs = true) :
    classify (AttemptOutcome.ok r) = AttemptClass.soft c := by
  have hn : normalizeBody r = some (Body.obj errs d c) := by
    unfold normalizeBody
    rw [hb]
  simp [classify, hn, hth]

theorem classify_functional (r : Response) (l : List GError)
    (d : Option Payload) (c : Option Cost)
    (hb : r.body = some (Body.obj (some l) d c))
    (hth : isThrottledErrors (some l) = false) :
    classify (AttemptOutcome.ok r) =
      AttemptClass.raise (plainError (joinMsgs l)) := by
  have hn : normalizeBody r = some (Body.obj (some l) d c) := by
    unfold normalizeBody
    rw [hb]
  simp [classify, hn, hth]

theorem softWait_cost (a : Nat) (l rqc ca rr : Int) (hrqc : rqc ≠ 0)
    (hdef : 0 < rqc - ca) (hrr : 0 < rr) :
    softWait a l
        (some { requestedQueryCost := some rqc,
                throttleStatus := some { currentlyAvailable := ca,
                                         restoreRate := rr } }) =
      (ceilDivPos (rqc - ca) rr * 1000 + 100, rqc) := by
  unfold softWait jsOrOpt jsOr
  simp only [if_neg hrqc]
  rw [if_pos ⟨hdef, hrr⟩]

theorem base_wait_ge_2000 (a : Nat) (ha : 1 ≤ a) :
    (2000 : Int) ≤ BASE_WAIT_MS * 2 ^ a := by
  have h2 : (2 : Int) ^ 1 ≤ 2 ^ a := pow_le_pow_right₀ (by norm_num) ha
  have h3 := mul_le_mul_of_nonneg_left h2 (by norm_num : (0 : Int) ≤ 1000)
  unfold BASE_WAIT_MS
  norm_num at h3 ⊢
  linarith

theorem catchWait_backoff (a : Nat) (e : JsError) (ha : 1 ≤ a)
    (hra : e.retryAfter = none) :
    catchWait a e = BASE_WAIT_MS * 2 ^ a := by
  unfold catchWait
  by_cases hnt : isNetThrottledErr e
  · rw [if_pos hnt, hra]
    exact max_eq_left (base_wait_ge_2000 a ha)
  · rw [if_neg hnt]

theorem catchWait_retry_after (a : Nat) (e : JsError) (s : Int)
    (hnt : isNetThrottledErr e) (hra : e.retryAfter = some s) :
    catchWait a e = max (s * 1000 + 500) 2000 := by
  unfold catchWait
  rw [if_pos hnt, hra]

/-! The wait segments emit no transport requests, and every request event
in a trace carries the caller's (unchanged) variable mapping. -/

theorem doWait_no_request (cfg : Config) (cc : Nat) (w : Int) (a : Nat) (b : Bool) :
    Event.request a b ∉ (doWait cfg cc w).snd := by
  unfold doWait
  split_ifs <;> simp

theorem loop_request_flag (cfg : Config) :
    ∀ fuel a (l : Int) cc a' b,
      Event.request a' b ∈ (graphqlRequestLoop cfg fuel a l cc).snd →
      b = cfg.hasCancel := by
  intro fuel
  induction fuel with
  | zero =>
    intro a l cc a' b h
    simp [graphqlRequestLoop] at h
  | succ f ih =>
    intro a l cc a' b h
    rcases hd : decideAttempt a l (cfg.transport a) with r | ⟨w, nl⟩
    · rw [loop_finish cfg f a l cc r hd] at h
      simp only [List.mem_singleton, Event.request.injEq] at h
      exact h.2
    · rcases hw : doWait cfg cc w with ⟨res, evs⟩
      cases res with
      | error e =>
        have hloop : graphqlRequestLoop cfg (f + 1) a l cc =
            (ExecResult.failure e, Event.request a cfg.hasCancel :: evs) := by
          simp [graphqlRequestLoop, hd, hw]
        rw [hloop] at h
        simp only [List.mem_cons, Event.request.injEq] at h
        rcases h with ⟨-, hb⟩ | h
        · exact hb
        · exact absurd h (by
            have := doWait_no_request cfg cc w a' b
            rw [hw] at this
            exact this)
      | ok cc2 =>
        have hloop : graphqlRequestLoop cfg (f + 1) a l cc =
            ((graphqlRequestLoop cfg f (a + 1) nl cc2).fst,
             Event.request a cfg.hasCancel ::
               (evs ++ (graphqlRequestLoop cfg f (a + 1) nl cc2).snd)) := by
          simp [graphqlRequestLoop, hd, hw]
        rw [hloop] at h
        simp only [List.mem_cons, List.mem_append, Event.request.injEq] at h
        rcases h with ⟨-, hb⟩ | h | h
        · exact hb
        · exact absurd h (by
            have := doWait_no_request cfg cc w a' b
            rw [hw] at this
            exact this)
        · exact ih (a + 1) nl cc2 a' b h

/-! Unfolding equations for the wait-wrapping checker. -/

theorem waitsWrapped_req (a : Nat) (b : Bool) (t : List Event) :
    waitsWrapped (Event.request a b :: t) = waitsWrapped t := rfl

theorem waitsWrapped_cc_nil (k : Nat) :
    waitsWrapped [Event.cancelCheck k] = true := rfl

theorem waitsWrapped_triple (k : Nat) (w : Int) (k' : Nat) (t : List Event) :
    waitsWrapped (Event.cancelCheck k :: Event.wait w :: Event.cancelCheck k' :: t) =
      waitsWrapped (Event.cancelCheck k' :: t) := rfl

theorem waitsWrapped_cc_req (k a : Nat) (b : Bool) (t : List Event) :
    waitsWrapped (Event.cancelCheck k :: Event.request a b :: t) =
      waitsWrapped (Event.request a b :: t) := rfl

theorem loop_shape (cfg : Config) (fuel a : Nat) (l : Int) (cc : Nat) :
    (graphqlRequestLoop cfg fuel a l cc).snd = [] ∨
      ∃ t, (graphqlRequestLoop cfg fuel a l cc).snd =
        Event.request a cfg.hasCancel :: t := by
  cases fuel with
  | zero => exact Or.inl rfl
  | succ f => exact Or.inr (loop_head cfg f a l cc)

/-- Main cancellation invariant of the loop: with a cancellation
predicate present, every wait in the trace is flanked by predicate
invocations, and any invocation that signals is the last event of the
trace, with the call failing with exactly the cancellation error. -/
theorem loop_cancel_spec (cfg : Config) (hc : cfg.hasCancel = true) :
    ∀ fuel a (l : Int) cc,
      waitsWrapped (graphqlRequestLoop cfg fuel a l cc).snd = true ∧
      (∀ k, Event.cancelCheck k ∈ (graphqlRequestLoop cfg fuel a l cc).snd →
        cfg.cancelSig k = true →
        (graphqlRequestLoop cfg fuel a l cc).fst =
          ExecResult.failure cancelledError ∧
        (graphqlRequestLoop cfg fuel a l cc).snd.getLast? =
          some (Event.cancelCheck k)) := by
  intro fuel
  induction fuel with
  | zero =>
    intro a l cc
    refine ⟨rfl, ?_⟩
    intro k hk
    simp [graphqlRequestLoop] at hk
  | succ f ih =>
    intro a l cc
    rcases hd : decideAttempt a l (cfg.transport a) with r | ⟨w, nl⟩
    · rw [loop_finish cfg f a l cc r hd]
      refine ⟨rfl, ?_⟩
      intro k hk
      simp at hk
    · by_cases h0 : cfg.cancelSig cc = true
      · have hw : doWait cfg cc w =
            (Except.error cancelledError, [Event.cancelCheck cc]) := by
          simp [doWait, hc, h0]
        have hloop : graphqlRequestLoop cfg (f + 1) a l cc =
            (ExecResult.failure cancelledError,
             [Event.request a cfg.hasCancel, Event.cancelCheck cc]) := by
          simp [graphqlRequestLoop, hd, hw]
        rw [hloop]
        refine ⟨rfl, ?_⟩
        intro k hk hsig
        simp only [List.mem_cons, List.mem_singleton, List.not_mem_nil] at hk
        rcases hk with hk | hk | hk
        · exact absurd hk (by simp)
        · cases hk
          exact ⟨rfl, by simp [List.getLast?]⟩
        · exact absurd hk (by simp)
      · by_cases h1 : cfg.cancelSig (cc + 1) = true
        · have hw : doWait cfg cc w =
              (Except.error cancelledError,
               [Event.cancelCheck cc, Event.wait w, Event.cancelCheck (cc + 1)]) := by
            simp [doWait, hc, h0, h1]
          have hloop : graphqlRequestLoop cfg (f + 1) a l cc =
              (ExecResult.failure cancelledError,
               [Event.request a cfg.hasCancel, Event.cancelCheck cc,
                Event.wait w, Event.cancelCheck (cc + 1)]) := by
            simp [graphqlRequestLoop, hd, hw]
          rw [hloop]
          refine ⟨rfl, ?_⟩
          intro k hk hsig
          simp only [List.mem_cons, List.not_mem_nil, or_false] at hk
          rcases hk with hk | hk | hk | hk
          · exact absurd hk (by simp)
          · cases hk
            exact absurd hsig (by simp [h0])
          · exact absurd hk (by simp)
          · cases hk
            exact ⟨rfl, by simp [List.getLast?]⟩
        · have hw : doWait cfg cc w =
              (Except.ok (cc + 2),
               [Event.cancelCheck cc, Event.wait w, Event.cancelCheck (cc + 1)]) := by
            simp [doWait, hc, h0, h1]
          have hloop : graphqlRequestLoop cfg (f + 1) a l cc =
              ((graphqlRequestLoop cfg f (a + 1) nl (cc + 2)).fst,
               Event.request a cfg.hasCancel ::
                 ([Event.cancelCheck cc, Event.wait w, Event.cancelCheck (cc + 1)] ++
                  (graphqlRequestLoop cfg f (a + 1) nl (cc + 2)).snd)) := by
            simp [graphqlRequestLoop, hd, hw]
          rw [hloop]
          constructor
          · rw [waitsWrapped_req]
            show waitsWrapped (Event.cancelCheck cc :: Event.wait w ::
              Event.cancelCheck (cc + 1) ::
              (graphqlRequestLoop cfg f (a + 1) nl (cc + 2)).snd) = true
            rw [waitsWrapped_triple]
            rcases loop_shape cfg f (a + 1) nl (cc + 2) with hnil | ⟨t, ht⟩
            · rw [hnil]
              exact waitsWrapped_cc_nil (cc + 1)
            · rw [ht, waitsWrapped_cc_req, ← ht]
              exact (ih (a + 1) nl (cc + 2)).1
          · intro k hk hsig
            simp only [List.cons_append, List.nil_append, List.mem_cons] at hk
            rcases hk with hk | hk | hk | hk | hk
            · exact absurd hk (by simp)
            · cases hk
              exact absurd hsig (by simp [h0])
            · exact absurd hk (by simp)
            · cases hk
              exact absurd hsig (by simp [h1])
            · have hrest := (ih (a + 1) nl (cc + 2)).2 k hk hsig
              have hne : (graphqlRequestLoop cfg f (a + 1) nl (cc + 2)).snd ≠ [] := by
                intro hnil
                rw [hnil] at hk
                exact List.not_mem_nil _ hk
              refine ⟨hrest.1, ?_⟩
              have hsplit : Event.request a cfg.hasCancel ::
                  ([Event.cancelCheck cc, Event.wait w, Event.cancelCheck (cc + 1)] ++
                   (graphqlRequestLoop cfg f (a + 1) nl (cc + 2)).snd) =
                  (Event.request a cfg.hasCancel ::
                   [Event.cancelCheck cc, Event.wait w, Event.cancelCheck (cc + 1)]) ++
                  (graphqlRequestLoop cfg f (a + 1) nl (cc + 2)).snd := by
                simp
              rw [hsplit, List.getLast?_append_of_ne_nil _ hne]
              exact hrest.2

/-! Exhaustion of the attempt budget. -/

theorem decideAttempt_of_success (a : Nat) (l : Int) (o : AttemptOutcome)
    (p : Payload) (h : classify o = AttemptClass.success p) :
    decideAttempt a l o = StepResult.finish (ExecResult.success p) := by
  simp [decideAttempt, h]

theorem decideAttempt_of_soft (a : Nat) (l : Int) (o : AttemptOutcome)
    (c : Option Cost) (h : classify o = AttemptClass.soft c) :
    decideAttempt a l o = StepResult.retry (softWait a l c).1 (softWait a l c).2 := by
  simp [decideAttempt, h]

theorem decideAttempt_of_raise (a : Nat) (l : Int) (o : AttemptOutcome)
    (e : JsError) (h : classify o = AttemptClass.raise e) :
    decideAttempt a l o = afterRaise a l e := by
  simp [decideAttempt, h]

theorem loop_zero (cfg : Config) (a : Nat) (l : Int) (cc : Nat) :
    graphqlRequestLoop cfg 0 a l cc = (ExecResult.failure exhaustedError, []) := rfl

theorem countRequests_req_wait (a : Nat) (b : Bool) (w : Int) (t : List Event) :
    countRequests (Event.request a b :: Event.wait w :: t) = countRequests t + 1 := by
  simp [countRequests, List.countP_cons]

/-- When every attempt of the budget classifies as retriable (judged at a
reference mid-budget attempt), the call consumes exactly `fuel` further
attempts, and the final outcome is determined by the classification of
attempt 10: the exhaustion error after a soft throttle, and the 10th
attempt's own thrown error otherwise. -/
theorem loop_exhaust (cfg : Config) (hc : cfg.hasCancel = false) :
    ∀ fuel a (l : Int) cc, a + fuel = 11 → 1 ≤ fuel →
      (∀ i, a ≤ i → i ≤ 10 →
        isRetryStep (decideAttempt 1 0 (cfg.transport i)) = true) →
      (graphqlRequestLoop cfg fuel a l cc).fst = finalFailureOf (cfg.transport 10) ∧
      countRequests (graphqlRequestLoop cfg fuel a l cc).snd = fuel := by
  intro fuel
  induction fuel with
  | zero =>
    intro a l cc hsum hpos hall
    exact absurd hpos (by omega)
  | succ f ih =>
    intro a l cc hsum hpos hall
    by_cases hf : f = 0
    · subst hf
      have ha10 : a = 10 := by omega
      subst ha10
      have h10 := hall 10 le_rfl le_rfl
      rcases hcl : classify (cfg.transport 10) with p | c | e
      · rw [decideAttempt_of_success 1 0 _ p hcl] at h10
        exact absurd h10 (by simp [isRetryStep])
      · have hd := decideAttempt_of_soft 10 l (cfg.transport 10) c hcl
        rw [loop_retry_nocancel cfg hc 0 10 l cc _ _ hd]
        refine ⟨?_, ?_⟩
        · rw [loop_zero]
          simp [finalFailureOf, hcl]
        · rw [loop_zero]
          rw [countRequests_req_wait]
          rfl
      · have hd : decideAttempt 10 l (cfg.transport 10) =
            StepResult.finish (ExecResult.failure e) := by
          rw [decideAttempt_of_raise 10 l _ e hcl, afterRaise_max]
        rw [loop_finish cfg 0 10 l cc _ hd]
        refine ⟨by simp [finalFailureOf, hcl], ?_⟩
        simp [countRequests, List.countP_cons]
    · have ha : a < 10 := by omega
      have h_a := hall a le_rfl (by omega)
      rcases hcl : classify (cfg.transport a) with p | c | e
      · rw [decideAttempt_of_success 1 0 _ p hcl] at h_a
        exact absurd h_a (by simp [isRetryStep])
      · have hd := decideAttempt_of_soft a l (cfg.transport a) c hcl
        rw [loop_retry_nocancel cfg hc f a l cc _ _ hd]
        have ihr := ih (a + 1) (softWait a l c).2 cc (by omega) (by omega)
          (fun i h1 h2 => hall i (by omega) h2)
        refine ⟨ihr.1, ?_⟩
        rw [countRequests_req_wait, ihr.2]
      · rw [decideAttempt_of_raise 1 0 _ e hcl] at h_a
        rcases afterRaise_retry_inv 0 e h_a with ⟨hnc, hre⟩
        have hd : decideAttempt a l (cfg.transport a) =
            StepResult.retry (catchWait a e) l := by
          rw [decideAttempt_of_raise a l _ e hcl]
          exact afterRaise_eq_retry a l e hnc hre (by
            show a < MAX_ATTEMPTS
            simpa [MAX_ATTEMPTS] using ha)
        rw [loop_retry_nocancel cfg hc f a l cc _ _ hd]
        have ihr := ih (a + 1) l cc (by omega) (by omega)
          (fun i h1 h2 => hall i (by omega) h2)
        refine ⟨ihr.1, ?_⟩
        rw [countRequests_req_wait, ihr.2]

theorem catchWait_not_nt (a : Nat) (e : JsError) (hnt : ¬isNetThrottledErr e) :
    catchWait a e = BASE_WAIT_MS * 2 ^ a := by
  unfold catchWait
  rw [if_neg hnt]

/-- A functional error thrown from the classification step (a plain error
whose message joins non-throttling error messages and is not one of the
internal transient sentinels) is rethrown by the catch block at once. -/
theorem afterRaise_functional (a : Nat) (l : Int) (errs : List GError)
    (hth : ∀ e ∈ errs, errThrottles e = false)
    (hs1 : joinMsgs errs ≠ "TRANSIENT_EMPTY_BODY")
    (hs2 : joinMsgs errs ≠ "TRANSIENT_MISSING_DATA") :
    afterRaise a l (plainError (joinMsgs errs)) =
      StepResult.finish (ExecResult.failure (plainError (joinMsgs errs))) := by
  unfold afterRaise
  by_cases hcan : (plainError (joinMsgs errs)).message = "IMPORT_CANCELLED"
  · rw [if_pos hcan]
  · rw [if_neg hcan, if_neg]
    rintro ⟨hre, -⟩
    have hjnt := joinMsgs_not_throttled errs hth
    rcases hre with h | h | h | h | h | h | h
    · exact hs1 h
    · exact hs2 h
    · exact Option.noConfusion h
    · rw [show (plainError (joinMsgs errs)).message = joinMsgs errs from rfl,
        hjnt] at h
      exact Bool.noConfusion h
    · exact Option.noConfusion h
    · exact Option.noConfusion h
    · exact Option.noConfusion h

/-! Concrete test fixtures used by the counterexamples and witnesses. -/

/-- A configuration with no cancellation predicate. -/
def noCancel (t : Nat → AttemptOutcome) : Config :=
  { transport := t, hasCancel := false, cancelSig := fun _ => false }

/-- A plain successful response carrying `data: "ok"`. -/
def okResp : Response :=
  { body := some (Body.obj none (some (Payload.pval "ok")) none) }

/-- A response carrying one throttling error together with full cost
metadata. -/
def thrResp (rqc ca rr : Int) : Response :=
  { body := some (Body.obj (some [{ message := some "Throttled" }]) none
      (some { requestedQueryCost := some rqc,
              throttleStatus := some { currentlyAvailable := ca,
                                       restoreRate := rr } })) }

/-- An empty-array response body. -/
def emptyResp : Response := { body := some (Body.arr 0) }

/-! Claim C1. -/

/-- A response whose body carries both a present `data` key and an
`errors` array. -/
def respC1 : Response :=
  { body := some (Body.obj (some [{ message := some "boom" }])
      (some (Payload.pval "P")) none) }

def cfgC1ce : Config := noCancel fun _ => AttemptOutcome.ok respC1

def cfgC1w : Config := noCancel fun _ => AttemptOutcome.ok okResp

/-- Claim C1, counterexample: a response whose normalized body has a
present `data` key (`data: "P"`) but also a non-throttling `errors`
array; `execute` throws the joined error message instead of returning the
data value, because the source checks `errors` (line 114) before `data`
(line 122). -/
theorem C1_counterexample :
    normalizeBody respC1 =
      some (Body.obj (some [{ message := some "boom" }])
        (some (Payload.pval "P")) none) ∧
    graphqlRequest cfgC1ce =
      (ExecResult.failure (plainError "boom"), [Event.request 1 false]) :=
  ⟨rfl, by decide⟩

/-- Claim C1 (amended): for every response whose normalized body has a
`data` key that is not undefined (including an explicit null value) and
carries no `errors` key, `execute` returns that data value successfully
and issues no further transport attempts after that response. -/
theorem C1_data_without_errors (cfg : Config) (fuel a : Nat) (l : Int)
    (cc : Nat) (r : Response) (p : Payload) (ec : Option Cost)
    (hr : cfg.transport a = AttemptOutcome.ok r)
    (hn : normalizeBody r = some (Body.obj none (some p) ec)) :
    graphqlRequestLoop cfg (fuel + 1) a l cc =
      (ExecResult.success p, [Event.request a cfg.hasCancel]) := by
  have hd : decideAttempt a l (cfg.transport a) =
      StepResult.finish (ExecResult.success p) := by
    rw [hr]
    exact decideAttempt_of_success a l _ p (classify_success r p ec hn)
  exact loop_finish cfg fuel a l cc _ hd

theorem C1_witness :
    graphqlRequest cfgC1w =
      (ExecResult.success (Payload.pval "ok"), [Event.request 1 false]) :=
  C1_data_without_errors cfgC1w 9 1 0 0 okResp (Payload.pval "ok") none rfl rfl

/-! Claim C2. -/

def cfgC2ce : Config := noCancel fun _ => AttemptOutcome.ok emptyResp

/-- Claim C2, counterexample: when all 10 attempts yield an empty body
(a transient classification), `execute` does not throw the exhaustion
error; the 10th attempt's own `TRANSIENT_EMPTY_BODY` error is rethrown on
source line 189, so a transient classification is surfaced to the
caller.  Exactly 10 requests are issued. -/
theorem C2_counterexample :
    (graphqlRequest cfgC2ce).fst =
      ExecResult.failure (plainError "TRANSIENT_EMPTY_BODY") ∧
    plainError "TRANSIENT_EMPTY_BODY" ≠ exhaustedError ∧
    countRequests (graphqlRequest cfgC2ce).snd = 10 :=
  ⟨by decide, by decide, by decide⟩

/-- Claim C2 (amended): when every attempt yields a transient
classification, `execute` throws after exactly 10 attempts, never 11.
The thrown failure is the exhaustion error naming the attempt budget only
when the 10th attempt took the soft-throttle path (whose `continue` ends
the loop); when the 10th attempt's transient classification was a thrown
error (empty/invalid body, missing data key, network throttle or a
recognized network error code), that very error is rethrown, so such a
transient classification is surfaced to the caller. -/
theorem C2_exhaustion_after_ten (cfg : Config) (hc : cfg.hasCancel = false)
    (hall : ∀ i, 1 ≤ i → i ≤ 10 →
      isRetryStep (decideAttempt 1 0 (cfg.transport i)) = true) :
    (graphqlRequest cfg).fst = finalFailureOf (cfg.transport 10) ∧
    countRequests (graphqlRequest cfg).snd = 10 :=
  loop_exhaust cfg hc 10 1 0 0 rfl (by omega) hall

theorem C2_witness :
    (graphqlRequest cfgC2ce).fst = finalFailureOf (cfgC2ce.transport 10) ∧
    countRequests (graphqlRequest cfgC2ce).snd = 10 :=
  C2_exhaustion_after_ten cfgC2ce rfl (fun _ _ _ => rfl)

/-! Claim C10. -/

def cfgC10w : Config := noCancel fun _ => AttemptOutcome.ok
  { body := some (Body.obj (some []) (some (Payload.pval "D")) none) }

/-- Claim C10: for every response whose body carries an `errors` field
equal to an empty array (which signals no throttling), `execute` throws a
functional error with an empty message on that attempt — a single
transport request, even when the body also contains a present `data`
key: an empty array is truthy in JS, so source line 114 fires and line
115 joins zero messages. -/
theorem C10_empty_errors_throw (cfg : Config) (fuel a : Nat) (l : Int)
    (cc : Nat) (r : Response) (d : Option Payload) (c : Option Cost)
    (hr : cfg.transport a = AttemptOutcome.ok r)
    (hb : r.body = some (Body.obj (some []) d c)) :
    graphqlRequestLoop cfg (fuel + 1) a l cc =
      (ExecResult.failure (plainError ""), [Event.request a cfg.hasCancel]) := by
  have hcl := classify_functional r [] d c hb rfl
  have hjoin : joinMsgs [] = "" := rfl
  have hd : decideAttempt a l (cfg.transport a) =
      StepResult.finish (ExecResult.failure (plainError "")) := by
    rw [hr, decideAttempt_of_raise a l _ _ hcl, ← hjoin]
    exact afterRaise_functional a l [] (by simp) (by decide) (by decide)
  exact loop_finish cfg fuel a l cc _ hd

theorem C10_witness :
    graphqlRequest cfgC10w =
      (ExecResult.failure (plainError ""), [Event.request 1 false]) :=
  C10_empty_errors_throw cfgC10w 9 1 0 0 _ (some (Payload.pval "D")) none rfl rfl

/-! Claim C3. -/

def cfgC3ce : Config := noCancel fun a =>
  if a = 1 then AttemptOutcome.ok (thrResp 0 (-1) 1) else AttemptOutcome.ok okResp

def cfgC3w : Config := noCancel fun a =>
  if a = 1 then AttemptOutcome.ok (thrResp 50 0 50) else AttemptOutcome.ok okResp

/-- Claim C3, counterexample: a throttled response with cost metadata
`requestedQueryCost = 0`, `currentlyAvailable = -1`, `restoreRate = 1`
has claim-deficit `0 - (-1) = 1 > 0`, so the claim predicts a wait of
`ceil(1/1)*1000 + 100 = 1100` ms; but `requestedQueryCost || ...` on
source line 88 treats the present value 0 as falsy and substitutes the
default 50, so the code waits `ceil(51/1)*1000 + 100 = 51100` ms. -/
theorem C3_counterexample :
    (graphqlRequest cfgC3ce).snd =
      [Event.request 1 false, Event.wait 51100, Event.request 2 false] ∧
    ceilDivPos (0 - (-1)) 1 * 1000 + 100 = 1100 ∧
    (51100 : Int) ≠ 1100 :=
  ⟨by decide, by decide, by decide⟩

/-- Claim C3 (amended): for every response carrying only throttling
errors together with cost metadata whose `requestedQueryCost` is nonzero
(JS-truthy), positive deficit `requestedQueryCost - currentlyAvailable`
and positive `restoreRate`, `execute` waits exactly
`ceil(deficit / restoreRate) * 1000 + 100` milliseconds and, while the
attempt budget is not exhausted, issues the next attempt. -/
theorem C3_throttle_cost_wait (cfg : Config) (hc : cfg.hasCancel = false)
    (fuel a : Nat) (l : Int) (cc : Nat) (r : Response) (errs : List GError)
    (d : Option Payload) (rqc ca rr : Int)
    (hr : cfg.transport a = AttemptOutcome.ok r)
    (hb : r.body = some (Body.obj (some errs) d
      (some { requestedQueryCost := some rqc,
              throttleStatus := some { currentlyAvailable := ca,
                                       restoreRate := rr } })))
    (hne : errs ≠ []) (hallth : ∀ e ∈ errs, errThrottles e = true)
    (hrqc : rqc ≠ 0) (hdef : 0 < rqc - ca) (hrr : 0 < rr) :
    ∃ rest, (graphqlRequestLoop cfg (fuel + 2) a l cc).snd =
      Event.request a false ::
        Event.wait (ceilDivPos (rqc - ca) rr * 1000 + 100) ::
        Event.request (a + 1) false :: rest := by
  have hth : isThrottledErrors (some errs) = true := by
    obtain ⟨e, es, rfl⟩ := List.exists_cons_of_ne_nil hne
    refine List.any_eq_true.mpr ⟨e, by simp, ?_⟩
    exact hallth e (by simp)
  have hcl := classify_soft r (some errs) d _ hb hth
  have hd : decideAttempt a l (cfg.transport a) =
      StepResult.retry (ceilDivPos (rqc - ca) rr * 1000 + 100) rqc := by
    rw [hr, decideAttempt_of_soft a l _ _ hcl,
      softWait_cost a l rqc ca rr hrqc hdef hrr]
  exact loop_retry_shape cfg hc fuel a l cc _ _ hd

theorem C3_witness :
    ∃ rest, (graphqlRequest cfgC3w).snd =
      Event.request 1 false :: Event.wait 1100 ::
        Event.request 2 false :: rest :=
  C3_throttle_cost_wait cfgC3w rfl 8 1 0 0 (thrResp 50 0 50)
    [{ message := some "Throttled" }] none 50 0 50 rfl rfl (by decide)
    (by decide) (by decide) (by decide) (by decide)

/-! Claim C4. -/

def cfgC4ce : Config := noCancel fun a =>
  if a = 1 then
    AttemptOutcome.ok
      { body := some (Body.obj (some [{ message := some "TRANSIENT_EMPTY_BODY" }])
          none none) }
  else AttemptOutcome.ok okResp

def cfgC4w : Config := noCancel fun _ => AttemptOutcome.ok
  { body := some (Body.obj (some [{ message := some "boom" }, { }]) none none) }

/-- Claim C4, counterexample: a response carrying the single
non-throttling error message "TRANSIENT_EMPTY_BODY" is not thrown
immediately: the thrown joined message collides with the internal
transient sentinel (source line 141), so the attempt is classified
transient and retried — here a second attempt succeeds. -/
theorem C4_counterexample :
    (graphqlRequest cfgC4ce) =
      (ExecResult.success (Payload.pval "ok"),
       [Event.request 1 false, Event.wait 2000, Event.request 2 false]) :=
  by decide

/-- Claim C4 (amended): for every response whose body carries errors none
of which signal throttling, and whose joined message is not one of the
internal sentinel strings "TRANSIENT_EMPTY_BODY" /
"TRANSIENT_MISSING_DATA", `execute` throws immediately on that attempt,
is never retried, and the thrown message equals the error messages joined
with " | ". -/
theorem C4_functional_throws_joined (cfg : Config) (fuel a : Nat) (l : Int)
    (cc : Nat) (r : Response) (errs : List GError) (d : Option Payload)
    (c : Option Cost)
    (hr : cfg.transport a = AttemptOutcome.ok r)
    (hb : r.body = some (Body.obj (some errs) d c))
    (hth : ∀ e ∈ errs, errThrottles e = false)
    (hs1 : joinMsgs errs ≠ "TRANSIENT_EMPTY_BODY")
    (hs2 : joinMsgs errs ≠ "TRANSIENT_MISSING_DATA") :
    graphqlRequestLoop cfg (fuel + 1) a l cc =
      (ExecResult.failure (plainError (joinMsgs errs)),
       [Event.request a cfg.hasCancel]) := by
  have hno : isThrottledErrors (some errs) = false := by
    refine List.any_eq_false.mpr ?_
    intro e he
    simp [hth e he]
  have hcl := classify_functional r errs d c hb hno
  have hd : decideAttempt a l (cfg.transport a) =
      StepResult.finish (ExecResult.failure (plainError (joinMsgs errs))) := by
    rw [hr, decideAttempt_of_raise a l _ _ hcl]
    exact afterRaise_functional a l errs hth hs1 hs2
  exact loop_finish cfg fuel a l cc _ hd

theorem C4_witness :
    graphqlRequest cfgC4w =
      (ExecResult.failure (plainError "boom | "), [Event.request 1 false]) :=
  C4_functional_throws_joined cfgC4w 9 1 0 0 _
    [{ message := some "boom" }, { }] none none rfl rfl (by decide)
    (by decide) (by decide)

/-! Claim C5. -/

def cfgC5w : Config :=
  { transport := fun _ => AttemptOutcome.ok (thrResp 50 0 50),
    hasCancel := true,
    cancelSig := fun k => k == 1 }

/-- Claim C5: for every call carrying a cancellation predicate, every
wait in the trace is immediately preceded and immediately followed by an
invocation of the predicate, and if any invocation throws the cancelled
signal, `execute` propagates exactly that signal and that invocation is
the last event of the call — in particular no transport call is issued
after the signal was observed. -/
theorem C5_cancellation_observed (cfg : Config) (hc : cfg.hasCancel = true) :
    waitsWrapped (graphqlRequest cfg).snd = true ∧
    (∀ k, Event.cancelCheck k ∈ (graphqlRequest cfg).snd →
      cfg.cancelSig k = true →
      (graphqlRequest cfg).fst = ExecResult.failure cancelledError ∧
      (graphqlRequest cfg).snd.getLast? = some (Event.cancelCheck k)) :=
  loop_cancel_spec cfg hc 10 1 0 0

theorem C5_witness :
    (graphqlRequest cfgC5w).fst = ExecResult.failure cancelledError ∧
    (graphqlRequest cfgC5w).snd.getLast? = some (Event.cancelCheck 1) :=
  (C5_cancellation_observed cfgC5w rfl).2 1 (by decide) rfl

/-! Claim C6. -/

def cfgC6ce : Config :=
  { transport := fun _ => AttemptOutcome.ok okResp,
    hasCancel := true,
    cancelSig := fun _ => false }

/-- Claim C6, counterexample: a call whose variable mapping contains the
cancellation-check field hands the transport primitive a variable mapping
that still contains that field (`true` in the request event) — source
lines 52-55 pass `variables` unchanged, nothing strips it. -/
theorem C6_counterexample :
    cfgC6ce.hasCancel = true ∧
    (graphqlRequest cfgC6ce).snd = [Event.request 1 true] :=
  ⟨rfl, by decide⟩

/-- Claim C6 (amended): the variable mapping handed to the transport
primitive on each attempt is the caller's mapping unchanged — every
request event carries the cancellation-check field exactly when the
caller supplied it; the executor never strips (nor otherwise mutates)
it. -/
theorem C6_variables_passed_unchanged (cfg : Config) (a : Nat) (b : Bool)
    (h : Event.request a b ∈ (graphqlRequest cfg).snd) : b = cfg.hasCancel :=
  loop_request_flag cfg 10 1 0 0 a b h

theorem C6_witness : true = cfgC6ce.hasCancel :=
  C6_variables_passed_unchanged cfgC6ce 1 true (by decide)

/-! Claim C7. -/

def cfgC7ce : Config := noCancel fun a =>
  if a = 1 then AttemptOutcome.ok emptyResp else AttemptOutcome.ok okResp

/-- Claim C7, counterexample: an empty-array body on attempt 1 is
retried after 2000 ms, not after the claimed
`1000 * 2^(attempt-1) = 1000` ms: the catch-path backoff of source line
153 uses `2^attempt`, not `2^(attempt-1)`. -/
theorem C7_counterexample :
    (graphqlRequest cfgC7ce).snd =
      [Event.request 1 false, Event.wait 2000, Event.request 2 false] ∧
    (2000 : Int) ≠ 1000 * 2 ^ (1 - 1) :=
  ⟨by decide, by decide⟩

/-- Claim C7 (amended): for every response whose body is an empty array
or absent, the attempt is classified transient and, provided the attempt
budget is not exhausted, `execute` retries after a wait of
`1000 * 2^attempt` milliseconds, where `attempt` is the 1-based index of
the failed attempt. -/
theorem C7_empty_body_backoff (cfg : Config) (hc : cfg.hasCancel = false)
    (fuel a : Nat) (l : Int) (cc : Nat) (r : Response)
    (hr : cfg.transport a = AttemptOutcome.ok r)
    (he : isEmptyBodyResp r = true) (hamax : a < MAX_ATTEMPTS) :
    ∃ rest, (graphqlRequestLoop cfg (fuel + 2) a l cc).snd =
      Event.request a false :: Event.wait (BASE_WAIT_MS * 2 ^ a) ::
        Event.request (a + 1) false :: rest := by
  have hcl := classify_empty r he
  have hcw : catchWait a (plainError "TRANSIENT_EMPTY_BODY") =
      BASE_WAIT_MS * 2 ^ a :=
    catchWait_not_nt a _ (by decide)
  have hd : decideAttempt a l (cfg.transport a) =
      StepResult.retry (BASE_WAIT_MS * 2 ^ a) l := by
    rw [hr, decideAttempt_of_raise a l _ _ hcl,
      afterRaise_eq_retry a l _ (by decide) (Or.inl rfl) hamax, hcw]
  exact loop_retry_shape cfg hc fuel a l cc _ _ hd

theorem C7_witness :
    ∃ rest, (graphqlRequest cfgC7ce).snd =
      Event.request 1 false :: Event.wait 2000 ::
        Event.request 2 false :: rest :=
  C7_empty_body_backoff cfgC7ce rfl 8 1 0 0 emptyResp rfl rfl (by decide)

/-! Claim C8. -/

def errC8ce : JsError :=
  { message := "timeout", code := some "ETIMEDOUT",
    responseCode := some 429, retryAfter := some 30 }

def cfgC8ce : Config := noCancel fun a =>
  if a = 1 then AttemptOutcome.err errC8ce else AttemptOutcome.ok okResp

def errC8w : JsError := { message := "socket timeout", code := some "ETIMEDOUT" }

def cfgC8w : Config := noCancel fun a =>
  if a = 3 then AttemptOutcome.err errC8w else AttemptOutcome.ok okResp

/-- Claim C8, counterexample: a transport exception with code
`ETIMEDOUT` that simultaneously carries a 429 response with a
`Retry-After: 30` header is retried after 30500 ms, not after the claimed
`1000 * 2^1 = 2000` ms: the network-throttle wait of source lines
156-162 takes precedence over the exponential backoff. -/
theorem C8_counterexample :
    (graphqlRequest cfgC8ce).snd =
      [Event.request 1 false, Event.wait 30500, Event.request 2 false] ∧
    (30500 : Int) ≠ 1000 * 2 ^ 1 :=
  ⟨by decide, by decide⟩

/-- Claim C8 (amended): for every transport-level exception whose code
is one of ECONNRESET, ETIMEDOUT, EPIPE — unless it carries the
cancellation message, or is simultaneously classified as network
throttling with a Retry-After header (which then sets the wait) —
`execute` retries, while attempts remain, after an exponential backoff
wait of `1000 * 2^attempt` milliseconds; in particular such an error on
attempt 3 is retried after 8000 ms. -/
theorem C8_network_error_backoff (cfg : Config) (hc : cfg.hasCancel = false)
    (fuel a : Nat) (l : Int) (cc : Nat) (e : JsError)
    (hr : cfg.transport a = AttemptOutcome.err e)
    (hcode : e.code = some "ECONNRESET" ∨ e.code = some "ETIMEDOUT" ∨
      e.code = some "EPIPE")
    (hnc : e.message ≠ "IMPORT_CANCELLED")
    (hnra : ¬(isNetThrottledErr e ∧ e.retryAfter ≠ none))
    (ha1 : 1 ≤ a) (hamax : a < MAX_ATTEMPTS) :
    ∃ rest, (graphqlRequestLoop cfg (fuel + 2) a l cc).snd =
      Event.request a false :: Event.wait (BASE_WAIT_MS * 2 ^ a) ::
        Event.request (a + 1) false :: rest := by
  have hre : retriableErr e := by
    rcases hcode with h | h | h
    · exact Or.inr (Or.inr (Or.inr (Or.inr (Or.inl h))))
    · exact Or.inr (Or.inr (Or.inr (Or.inr (Or.inr (Or.inl h)))))
    · exact Or.inr (Or.inr (Or.inr (Or.inr (Or.inr (Or.inr h)))))
  have hcw : catchWait a e = BASE_WAIT_MS * 2 ^ a := by
    by_cases hnt : isNetThrottledErr e
    · have hra : e.retryAfter = none := by
        by_contra hcon
        exact hnra ⟨hnt, hcon⟩
      exact catchWait_backoff a e ha1 hra
    · exact catchWait_not_nt a e hnt
  have hd : decideAttempt a l (cfg.transport a) =
      StepResult.retry (BASE_WAIT_MS * 2 ^ a) l := by
    rw [hr, decideAttempt_of_raise a l (AttemptOutcome.err e) e rfl,
      afterRaise_eq_retry a l e hnc hre hamax, hcw]
  exact loop_retry_shape cfg hc fuel a l cc _ _ hd

theorem C8_witness :
    ∃ rest, (graphqlRequestLoop cfgC8w 8 3 0 0).snd =
      Event.request 3 false :: Event.wait 8000 ::
        Event.request 4 false :: rest :=
  C8_network_error_backoff cfgC8w rfl 6 3 0 0 errC8w rfl
    (Or.inr (Or.inl rfl)) (by decide) (by decide) (by decide) (by decide)

/-! Claim C9. -/

def errC9ce : JsError :=
  { message := "Throttled by server", responseCode := some 429,
    retryAfter := some 1 }

def cfgC9ce : Config := noCancel fun a =>
  if a = 10 then AttemptOutcome.err errC9ce else AttemptOutcome.ok emptyResp

def errC9w : JsError := { message := "Throttled", retryAfter := some 3 }

def cfgC9w : Config := noCancel fun a =>
  if a = 1 then AttemptOutcome.err errC9w else AttemptOutcome.ok okResp

/-- Claim C9, counterexample: a transport exception classified as
network throttling (429, Retry-After present) arriving on attempt 10 is
not retried at all: the attempt budget is exhausted, so source line 189
rethrows it — `execute` fails with that very error after exactly 10
requests, the last event being the 10th request. -/
theorem C9_counterexample :
    (graphqlRequest cfgC9ce).fst = ExecResult.failure errC9ce ∧
    countRequests (graphqlRequest cfgC9ce).snd = 10 ∧
    (graphqlRequest cfgC9ce).snd.getLast? = some (Event.request 10 false) :=
  ⟨by decide, by decide, by decide⟩

/-- Claim C9 (amended): for every transport-level exception classified
as network throttling (HTTP 429 status, or a message containing
"throttled" case-insensitively, and not the cancellation signal),
`execute` retries while attempts remain, and when a Retry-After header is
present the wait before the next attempt is the header value in seconds
converted to milliseconds plus a 500 ms safety margin, with the
resulting wait floored at 2000 ms. -/
theorem C9_network_throttle_retry (cfg : Config) (hc : cfg.hasCancel = false)
    (fuel a : Nat) (l : Int) (cc : Nat) (e : JsError)
    (hr : cfg.transport a = AttemptOutcome.err e)
    (hnc : e.message ≠ "IMPORT_CANCELLED")
    (hnt : isNetThrottledErr e) (hamax : a < MAX_ATTEMPTS) :
    ∃ rest, (graphqlRequestLoop cfg (fuel + 2) a l cc).snd =
      Event.request a false :: Event.wait (catchWait a e) ::
        Event.request (a + 1) false :: rest ∧
      (∀ s, e.retryAfter = some s →
        catchWait a e = max (s * 1000 + 500) 2000) := by
  have hre : retriableErr e := by
    rcases hnt with h | h
    · exact Or.inr (Or.inr (Or.inl h))
    · exact Or.inr (Or.inr (Or.inr (Or.inl h)))
  have hd : decideAttempt a l (cfg.transport a) =
      StepResult.retry (catchWait a e) l := by
    rw [hr, decideAttempt_of_raise a l (AttemptOutcome.err e) e rfl,
      afterRaise_eq_retry a l e hnc hre hamax]
  rcases loop_retry_shape cfg hc fuel a l cc _ _ hd with ⟨rest, hrest⟩
  exact ⟨rest, hrest, fun s hs => catchWait_retry_after a e s hnt hs⟩

theorem C9_witness :
    ∃ rest, (graphqlRequest cfgC9w).snd =
      Event.request 1 false :: Event.wait (catchWait 1 errC9w) ::
        Event.request 2 false :: rest ∧
      (∀ s, errC9w.retryAfter = some s →
        catchWait 1 errC9w = max (s * 1000 + 500) 2000) :=
  C9_network_throttle_retry cfgC9w rfl 8 1 0 0 errC9w rfl (by decide)
    (by decide) (by decide)

end ShopifyClient
